import Mathlib

/-!
Shallow embedding of the ember feed aggregator.

The embedded code:
* `src/pages/api/articles.ts` — the articles query endpoint (`handler`) and the
  on-demand fallback aggregation (`getAllArticles`);
* `scripts/generate-feed.js` (`generateFeedJson`) — the ahead-of-time generator:
  per-source fetch with retry, normalisation, sort, persist;
* `src/pages/user/[name].tsx` — the users query endpoint (`handler`);
* `src/pages/api/refresh-feed.ts` — the manual refresh endpoint.

Modelling conventions:
* JS timestamps are modelled as `Int` on an order-isomorphic scale: a calendar
  date `(year, monthIndex, day)` built by `new Date(y, m0, d)` is encoded by
  `jsDate`, which is strictly monotone in the lexicographic order of valid
  calendar dates, exactly as real epoch-millisecond timestamps are.  The code
  under embedding only ever compares dates, so an order-isomorphic scale is a
  faithful model of every comparison it performs.
* A raw feed item's `pubDate` is `Option Int`: `none` models a JS-falsy publish
  date (absent or empty string), `some t` a string that parses to timestamp `t`.
* JS `x || d` on numbers maps `NaN` (malformed) and `0` to the default `d`;
  `jsNumOr` models the parsed query value as `Option Int` (`none` = `NaN`).
* JS truthiness on strings (`if (s)`, `s || d`): the empty string is falsy.
-/

namespace Ember

/-- `new Date(y, m0, d)` with 0-indexed month `m0`, as an order-isomorphic
integer timestamp.  Years 0..99 are mapped to 1900..1999, the JS legacy
two-digit-year rule, so `new Date(0, 0, 1)` is 1900-01-01. -/
def jsDate (y m0 d : Int) : Int :=
  let yy := if 0 ≤ y ∧ y ≤ 99 then y + 1900 else y
  (yy * 12 + m0) * 31 + (d - 1)

/-- `Number(v) || d`: `none` models `NaN` from a malformed input; JS `||`
also replaces a parsed `0` by the default. -/
def jsNumOr (v : Option Int) (d : Int) : Int :=
  match v with
  | none => d
  | some n => if n = 0 then d else n

/-- String truthiness: collapse an absent or empty string parameter to `none`. -/
def jsTruthyStr : Option String → Option String
  | none => none
  | some s => if s = "" then none else some s

/-- `Math.ceil(a / b)` on integers (`b ≠ 0`): ceiling division, written through
floor division `Int.fdiv` as `⌈x⌉ = -⌊-x⌋`. -/
def jsCeilDiv (a b : Int) : Int := -((-a).fdiv b)

/-- `Array.prototype.slice(s, e)`: negative indices count from the end, then
both are clamped to `[0, length]`. -/
def jsSlice {α : Type} (l : List α) (s e : Int) : List α :=
  let len : Int := l.length
  let s' := if s < 0 then max (len + s) 0 else min s len
  let e' := if e < 0 then max (len + e) 0 else min e len
  (l.drop s'.toNat).take (e' - s').toNat

/-- The `RSSItem` shape of `src/pages/api/articles.ts`. -/
structure Article where
  title : String
  link : String
  pubDate : Int
  contentSnippet : String
  tags : List String
  siteName : String
  author : String
  authorAvatar : Option String
  isDuringEmployment : Option Bool
  deriving Repr, DecidableEq

/-- Query parameters of the articles endpoint, after `Number(...)` parsing of
the numeric ones (`none` = absent or `NaN`) and raw strings for the rest. -/
structure ArticlesQuery where
  page : Option Int
  perPage : Option Int
  author : Option String
  tag : Option String
  duringEmploymentOnly : Option String
  deriving Repr, DecidableEq

structure Pagination where
  total : Int
  page : Int
  perPage : Int
  totalPages : Int
  deriving Repr, DecidableEq

structure ApiResponse where
  articles : List Article
  pagination : Pagination
  deriving Repr, DecidableEq

/-- The filter cascade of `handler` in `src/pages/api/articles.ts` lines
160-171: author filter (JS-truthy check), then — only inside the author
branch — the `isDuringEmployment === true` filter when
`duringEmploymentOnly === 'true'`, then the tag filter. -/
def filteredArticles (q : ArticlesQuery) (l : List Article) : List Article :=
  let l1 :=
    match jsTruthyStr q.author with
    | none => l
    | some au =>
      let la := l.filter (fun a => a.author == au)
      if q.duringEmploymentOnly == some "true" then
        la.filter (fun a => a.isDuringEmployment == some true)
      else la
  match jsTruthyStr q.tag with
  | none => l1
  | some t => l1.filter (fun a => a.tags.contains t)

/-- `handler` of `src/pages/api/articles.ts` (lines 149-192), applied to an
already-loaded aggregate: parse `page`/`perPage` with defaults 1 and 12,
filter, compute `totalPages = max(1, ceil(total / perPage))`, clamp the page,
and slice. -/
def articlesHandler (allArticles : List Article) (q : ArticlesQuery) : ApiResponse :=
  let page := jsNumOr q.page 1
  let perPage := jsNumOr q.perPage 12
  let arts := filteredArticles q allArticles
  let total : Int := arts.length
  let totalPages := max 1 (jsCeilDiv total perPage)
  let safePageNumber := min (max 1 page) totalPages
  let startIndex := (safePageNumber - 1) * perPage
  let endIndex := startIndex + perPage
  { articles := jsSlice arts startIndex endIndex
    pagination :=
      { total := total, page := safePageNumber, perPage := perPage
        totalPages := totalPages } }

/-- Decomposed filter predicates of the endpoint (used to state C6):
author equality when a truthy `author` is given. -/
def authorOk (q : ArticlesQuery) (a : Article) : Bool :=
  match jsTruthyStr q.author with
  | some au => a.author == au
  | none => true

/-- Employment predicate: only active when a truthy `author` is given AND
`duringEmploymentOnly === 'true'`. -/
def empOk (q : ArticlesQuery) (a : Article) : Bool :=
  if (jsTruthyStr q.author).isSome && (q.duringEmploymentOnly == some "true") then
    a.isDuringEmployment == some true
  else true

/-- Tag membership when a truthy `tag` is given. -/
def tagOk (q : ArticlesQuery) (a : Article) : Bool :=
  match jsTruthyStr q.tag with
  | some t => a.tags.contains t
  | none => true

/-! ### Feed generation (`scripts/generate-feed.js`, `generateFeedJson`) -/

/-- A `{year, month}` pair from the config. -/
structure DateYM where
  year : Int
  month : Int
  deriving Repr, DecidableEq

/-- The three JS states of the `left_at?: DateYearMonth | null` field:
key absent (`undefined`), explicit `null`, or a value. -/
inductive LeftAt where
  | absent : LeftAt
  | null : LeftAt
  | val : DateYM → LeftAt
  deriving Repr, DecidableEq

/-- A config user as read by the generator and the users endpoint. -/
structure GenUser where
  name : String
  avatar : Option String
  joined_at : Option DateYM
  left_at : LeftAt
  tags : List String
  sources : List String
  deriving Repr, DecidableEq

/-- A raw feed item as returned by the RSS parser.  `pubDate` is `none` when
the publish date is JS-falsy (absent or empty), `some t` when it parses to
timestamp `t`.  Freshly fetched items carry no employment flag. -/
structure RawItem where
  title : String
  link : String
  pubDate : Option Int
  contentSnippet : String
  deriving Repr, DecidableEq

/-- A parsed feed: optional title plus items. -/
structure Feed where
  title : Option String
  items : List RawItem
  deriving Repr, DecidableEq

/-- `parsedFeed.title || 'Unknown Source'`. -/
def jsTitleOr (t : Option String) : String :=
  match jsTruthyStr t with
  | some s => s
  | none => "Unknown Source"

/-- `joinDate = user.joined_at ? new Date(joined_at.year, joined_at.month - 1, 1)
: new Date(0, 0, 1)` — the absent-start default is `new Date(0,0,1)`, which JS
maps to 1900-01-01. -/
def genJoinDate (u : GenUser) : Int :=
  match u.joined_at with
  | some dy => jsDate dy.year (dy.month - 1) 1
  | none => jsDate 0 0 1

/-- `leftDate = user.left_at ? new Date(left_at.year, left_at.month - 1, 1)
: new Date(9999, 11, 31)`; `undefined` and `null` are both falsy. -/
def genLeftDate (u : GenUser) : Int :=
  match u.left_at with
  | LeftAt.val dy => jsDate dy.year (dy.month - 1) 1
  | _ => jsDate 9999 11 31

/-- The generator's normalizer for one dated item: attach tags, site name
(`|| 'Unknown Source'`), author, avatar and the employment flag
`pubDate >= joinDate && pubDate <= leftDate`. -/
def genArticle (u : GenUser) (feedTitle : Option String) (i : RawItem) (t : Int) : Article :=
  { title := i.title, link := i.link, pubDate := t, contentSnippet := i.contentSnippet,
    tags := u.tags, siteName := jsTitleOr feedTitle, author := u.name,
    authorAvatar := u.avatar,
    isDuringEmployment := some (decide (genJoinDate u ≤ t ∧ t ≤ genLeftDate u)) }

/-- `parsedFeed.items.filter(item => item.pubDate).map(...)`: drop items with a
falsy publish date, normalize the rest.  No error is recorded for the dropped
items. -/
def genFeedArticles (u : GenUser) (feed : Feed) : List Article :=
  feed.items.filterMap (fun i => i.pubDate.map (fun t => genArticle u feed.title i t))

/-- `fetchFeedWithRetry(sourceUrl, retries = 3)`.  `attemptResult k` is the
outcome of the `k`-th network attempt (`none` = parse/fetch failure, modelling
the thrown error).  Returns the overall outcome together with the number of
1-second inter-attempt delays executed (`setTimeout(..., 1000)` runs exactly
once before each retry). -/
def fetchFeedWithRetry (attemptResult : Nat → Option Feed) :
    Nat → Nat → Option Feed × Nat
  | attempt, 0 => (attemptResult attempt, 0)
  | attempt, retries + 1 =>
    match attemptResult attempt with
    | some f => (some f, 0)
    | none =>
      let r := fetchFeedWithRetry attemptResult (attempt + 1) retries
      (r.1, r.2 + 1)

/-- The per-source fetch outcome after the retry loop with the default
`retries = 3`. -/
def netOf (oracle : String → Nat → Option Feed) (src : String) : Option Feed :=
  (fetchFeedWithRetry (oracle src) 0 3).1

/-- One source's contribution: the `catch` around `fetchFeedWithRetry` maps a
source that failed all attempts to an empty list. -/
def genSourceArticles (net : String → Option Feed) (u : GenUser) (src : String) :
    List Article :=
  match net src with
  | none => []
  | some feed => genFeedArticles u feed

/-- One user's step of the generator loop, threading `processedUrls`: sources
that are falsy or already processed are skipped, the rest are fetched and
their articles appended. -/
def genStep (net : String → Option Feed) (acc : List Article × List String)
    (u : GenUser) : List Article × List String :=
  let srcs := u.sources.filter (fun s => s != "" && !(acc.2.contains s))
  (acc.1 ++ (srcs.map (genSourceArticles net u)).flatten, acc.2 ++ srcs)

/-- All articles gathered by the generator, pre-sort (encounter order). -/
def generateRawArticles (net : String → Option Feed) (users : List GenUser) :
    List Article :=
  (users.foldl (genStep net) ([], [])).1

/-- Descending-by-publish-timestamp ordering used by both sorts
(`(a, b) => new Date(b.pubDate).getTime() - new Date(a.pubDate).getTime()`). -/
def articleGE (a b : Article) : Prop := b.pubDate ≤ a.pubDate

instance : DecidableRel articleGE := fun a b =>
  inferInstanceAs (Decidable (b.pubDate ≤ a.pubDate))

instance : IsTotal Article articleGE := ⟨fun a b => le_total b.pubDate a.pubDate⟩

instance : IsTrans Article articleGE := ⟨fun _ _ _ h1 h2 => le_trans h2 h1⟩

/-- `allArticles.sort(...)`: `Array.prototype.sort` is stable (ES2019), and the
stable descending order of a list is unique, so a stable insertion sort with
`articleGE` is an exact model. -/
def sortArticles (l : List Article) : List Article := List.insertionSort articleGE l

/-- The whole generator: fetch every processed source through the retry loop,
normalize, concatenate, sort descending. -/
def generateFeedJson (oracle : String → Nat → Option Feed) (users : List GenUser) :
    List Article :=
  sortArticles (generateRawArticles (netOf oracle) users)

/-- The net-independent list of (user, source) pairs the generator actually
fetches: dedup by `processedUrls` plus the falsy-URL skip. -/
def processedPairs (users : List GenUser) : List (GenUser × String) :=
  (users.foldl
    (fun (acc : List (GenUser × String) × List String) u =>
      let srcs := u.sources.filter (fun s => s != "" && !(acc.2.contains s))
      (acc.1 ++ srcs.map (fun s => (u, s)), acc.2 ++ srcs))
    ([], [])).1

/-! ### The on-demand fallback path (`getAllArticles` in
`src/pages/api/articles.ts`) -/

/-- The config user as the fallback path reads it: it accesses `user.joined`
unconditionally (`new Date(user.joined.year, user.joined.month - 1, 1)`),
so the field is modelled as mandatory here. -/
structure FbUser where
  name : String
  avatar : Option String
  joined : DateYM
  left_at : LeftAt
  tags : List String
  sources : List String
  deriving Repr, DecidableEq

def fbJoinDate (u : FbUser) : Int := jsDate u.joined.year (u.joined.month - 1) 1

def fbLeftDate (u : FbUser) : Int :=
  match u.left_at with
  | LeftAt.val dy => jsDate dy.year (dy.month - 1) 1
  | _ => jsDate 9999 11 31

/-- The fallback's per-item construction: `{...item, tags, siteName, author,
authorAvatar}`.  A freshly parsed item has no `isDuringEmployment` property,
so the spread leaves the flag absent. -/
def fbArticle (u : FbUser) (feedTitle : Option String) (i : RawItem) (t : Int) : Article :=
  { title := i.title, link := i.link, pubDate := t, contentSnippet := i.contentSnippet,
    tags := u.tags, siteName := jsTitleOr feedTitle, author := u.name,
    authorAvatar := u.avatar,
    isDuringEmployment := none }

/-- The fallback's per-feed loop: skip items with a falsy publish date, keep
only items inside the tenure window (`pubDate >= joinDate && pubDate <=
leftDate`) — filtering at ingestion rather than flagging. -/
def fbFeedArticles (u : FbUser) (feed : Feed) : List Article :=
  feed.items.filterMap (fun i =>
    match i.pubDate with
    | none => none
    | some t =>
      if fbJoinDate u ≤ t ∧ t ≤ fbLeftDate u then some (fbArticle u feed.title i t)
      else none)

/-- One source's contribution on the fallback path (no retry; the `catch`
skips a failing feed). -/
def fbSourceArticles (net : String → Option Feed) (u : FbUser) (src : String) :
    List Article :=
  match net src with
  | none => []
  | some feed => fbFeedArticles u feed

/-- Pre-sort fallback aggregate: sequential loop over users and their truthy
sources, no dedup. -/
def fallbackRawArticles (net : String → Option Feed) (users : List FbUser) :
    List Article :=
  (users.map (fun u =>
    ((u.sources.filter (fun s => s != "")).map (fbSourceArticles net u)).flatten)).flatten

/-- The fallback aggregate served by `getAllArticles` when no snapshot exists:
live fetch, then sort descending. -/
def getAllArticlesFallback (net : String → Option Feed) (users : List FbUser) :
    List Article :=
  sortArticles (fallbackRawArticles net users)

/-! ### Users endpoint (`src/pages/user/[name].tsx`, API `handler`) -/

inductive UsersResponse where
  | one : Option GenUser → UsersResponse
  | many : List GenUser → UsersResponse
  deriving Repr, DecidableEq

/-- The users endpoint: with a truthy `name`, `users.find(u => u.name ===
name) || null`; otherwise `users.filter(user => user.left_at === null)`. -/
def usersHandler (users : List GenUser) (nameQ : Option String) : UsersResponse :=
  match jsTruthyStr nameQ with
  | some n => UsersResponse.one (users.find? (fun u => u.name == n))
  | none => UsersResponse.many (users.filter (fun u => u.left_at == LeftAt.null))

/-- Modelled from the spec: a user with "no recorded departure" — `left_at`
null or absent both mean currently active (spec §3: "null/absent end means
currently active"). -/
def noRecordedDeparture (u : GenUser) : Bool :=
  match u.left_at with
  | LeftAt.val _ => false
  | _ => true

/-! ### Manual refresh endpoint (`src/pages/api/refresh-feed.ts`) -/

structure RefreshRequest where
  method : String
  headerApiKey : Option String
  bodySecretKey : Option String
  deriving Repr, DecidableEq

/-- Outcome of `generateFeed()` as the endpoint consumes it. -/
structure GenResult where
  success : Bool
  error : Option String
  deriving Repr, DecidableEq

inductive RefreshResponse where
  | methodNotAllowed : RefreshResponse
  | unauthorized : RefreshResponse
  | ok : String → Nat → RefreshResponse
  | failed : String → Nat → RefreshResponse
  deriving Repr, DecidableEq

/-- JS `a || b` on possibly-undefined strings (empty string is falsy). -/
def jsStrOr (a b : Option String) : Option String :=
  match a with
  | some s => if s = "" then b else some s
  | none => b

/-- `process.env.REFRESH_API_KEY || 'dev-key'`. -/
def refreshValidKey (envKey : Option String) : String :=
  match jsTruthyStr envKey with
  | some s => s
  | none => "dev-key"

/-- The refresh endpoint.  The boolean records whether `generateFeed()` was
run (hence whether any snapshot state could be touched); the response carries
the measured duration only on the paths that ran the generator. -/
def refreshHandler (req : RefreshRequest) (envKey : Option String) (gen : GenResult)
    (durationMs : Nat) : Bool × RefreshResponse :=
  if req.method != "POST" then (false, RefreshResponse.methodNotAllowed)
  else if jsStrOr req.headerApiKey req.bodySecretKey != some (refreshValidKey envKey) then
    (false, RefreshResponse.unauthorized)
  else if gen.success then
    (true, RefreshResponse.ok "Feed refreshed successfully" durationMs)
  else
    (true, RefreshResponse.failed
      (match jsTruthyStr gen.error with | some e => e | none => "Unknown error") durationMs)

/-! ### Spec-side comparison definition and concrete fixtures -/

/-- The employment window as the spec words it: "`tenureStart` defaults to the
earliest representable date when absent" — i.e. no lower bound at all in this
integer-timestamp model. -/
def specDuringEmployment (u : GenUser) (t : Int) : Bool :=
  (match u.joined_at with
   | some dy => decide (jsDate dy.year (dy.month - 1) 1 ≤ t)
   | none => true)
  && decide (t ≤ genLeftDate u)

/-- A sample article used by concrete witnesses. -/
def sampleArticle : Article :=
  { title := "t", link := "https://example.com/a", pubDate := 0, contentSnippet := "s",
    tags := ["rust"], siteName := "Site", author := "alice", authorAvatar := none,
    isDuringEmployment := some true }

/-- The spec's example user: tenure 2020-01 .. 2021-06. -/
def exUser : GenUser :=
  { name := "A", avatar := none, joined_at := some ⟨2020, 1⟩,
    left_at := LeftAt.val ⟨2021, 6⟩, tags := [], sources := [] }

/-- A user with `joined_at` absent and an explicit `left_at: null`. -/
def preUser : GenUser :=
  { name := "old", avatar := none, joined_at := none, left_at := LeftAt.null,
    tags := [], sources := [] }

/-- An item published 1850-01-01 (before the 1900-01-01 default join date). -/
def preItem : RawItem :=
  { title := "old post", link := "https://example.com/old",
    pubDate := some (jsDate 1850 0 1), contentSnippet := "" }

/-- A user whose `left_at` key is absent (`undefined`), not `null`. -/
def absentLeftUser : GenUser :=
  { name := "alice", avatar := none, joined_at := some ⟨2020, 1⟩, left_at := LeftAt.absent,
    tags := [], sources := [] }

/-- A user with an explicit `left_at: null`. -/
def nullLeftUser : GenUser :=
  { name := "bob", avatar := none, joined_at := some ⟨2020, 1⟩, left_at := LeftAt.null,
    tags := [], sources := [] }

/-- Two raw items sharing one publish timestamp (for the stability witness). -/
def itemA : RawItem :=
  { title := "first", link := "https://example.com/1",
    pubDate := some (jsDate 2024 0 2), contentSnippet := "" }

def itemB : RawItem :=
  { title := "second", link := "https://example.com/2",
    pubDate := some (jsDate 2024 0 2), contentSnippet := "" }

def feed0 : Feed := { title := some "Site", items := [itemA, itemB] }

/-- An oracle where one URL succeeds immediately and every other fails. -/
def oracle0 (src : String) (_ : Nat) : Option Feed :=
  if src = "https://example.com/feed" then some feed0 else none

def srcUser : GenUser :=
  { name := "A", avatar := none, joined_at := some ⟨2020, 1⟩, left_at := LeftAt.null,
    tags := ["rust"], sources := ["https://example.com/feed"] }

def fbUser0 : FbUser :=
  { name := "A", avatar := none, joined := ⟨2020, 1⟩, left_at := LeftAt.null,
    tags := ["rust"], sources := ["https://example.com/feed"] }

def net0 (src : String) : Option Feed :=
  if src = "https://example.com/feed" then some feed0 else none

/-- An item with a JS-falsy publish date. -/
def noDateItem : RawItem :=
  { title := "x", link := "https://example.com/x", pubDate := none, contentSnippet := "" }

/-- A refresh request carrying the valid key in the header. -/
def okReq : RefreshRequest :=
  { method := "POST", headerApiKey := some "dev-key", bodySecretKey := none }

/-- A refresh request with a wrong body secret and no header key. -/
def badReq : RefreshRequest :=
  { method := "POST", headerApiKey := none, bodySecretKey := some "wrong" }

/-! ### Arithmetic facts about the JS helpers -/

/-- `jsCeilDiv a b * b` is the least multiple of `b` that is at least `a`
(positive divisor): the defining property of ceiling division. -/
theorem jsCeilDiv_mul (a b : Int) (hb : 0 < b) :
    a ≤ jsCeilDiv a b * b ∧ jsCeilDiv a b * b - b < a := by
  have h1 := Int.ediv_add_emod (-a) b
  have h2 := Int.emod_nonneg (-a) (ne_of_gt hb)
  have h3 := Int.emod_lt_of_pos (-a) hb
  have hq : jsCeilDiv a b * b = a + (-a) % b := by
    unfold jsCeilDiv
    rw [Int.fdiv_eq_ediv _ hb.le]
    linear_combination -h1
  rw [hq]
  constructor <;> linarith

theorem jsCeilDiv_pos (a b : Int) (ha : 0 < a) (hb : 0 < b) : 1 ≤ jsCeilDiv a b := by
  rcases jsCeilDiv_mul a b hb with ⟨h1, -⟩
  by_contra h
  push_neg at h
  have : jsCeilDiv a b * b ≤ 0 := mul_nonpos_of_nonpos_of_nonneg (by omega) hb.le
  omega

/-- For `0 ≤ s ≤ e`, `slice(s, e)` is drop-then-take. -/
theorem jsSlice_eq {α : Type} (l : List α) (s e : Int) (hs : 0 ≤ s) (hse : s ≤ e) :
    jsSlice l s e = (l.drop s.toNat).take (e - s).toNat := by
  unfold jsSlice
  simp only [if_neg (not_lt.mpr hs), if_neg (not_lt.mpr (le_trans hs hse))]
  rcases le_or_lt (l.length : Int) s with hls | hls
  · rw [min_eq_right hls, min_eq_right (le_trans hls hse)]
    have h1 : l.drop ((l.length : Int)).toNat = [] :=
      List.drop_eq_nil_of_le (by simp)
    have h2 : l.drop s.toNat = [] := List.drop_eq_nil_of_le (by omega)
    simp [h1, h2]
  · rw [min_eq_left hls.le]
    rcases le_or_lt e (l.length : Int) with hel | hel
    · rw [min_eq_left hel]
    · rw [min_eq_right hel.le]
      rw [List.take_of_length_le (by rw [List.length_drop]; omega),
        List.take_of_length_le (by rw [List.length_drop]; omega)]

/-- Unfolding of the slice the handler returns. -/
theorem articlesHandler_articles_def (l : List Article) (q : ArticlesQuery) :
    (articlesHandler l q).articles =
      jsSlice (filteredArticles q l)
        (((articlesHandler l q).pagination.page - 1) * jsNumOr q.perPage 12)
        (((articlesHandler l q).pagination.page - 1) * jsNumOr q.perPage 12
          + jsNumOr q.perPage 12) := rfl

/-- C1: for every request, `page`/`perPage` are derived from the query with
malformed inputs (and JS-falsy `0`) defaulting to 1 and 12,
`totalPages = max(1, ceil(filteredCount / perPage))`, and the requested page is
clamped into `[1, totalPages]`; a request with `page = 0` or beyond
`totalPages` gets the clamped page, and (for a positive `perPage`) a non-empty
filtered collection always yields a non-empty slice — never an error or an
invalid slice. -/
theorem C1_pagination_defaults_and_clamp (l : List Article) (q : ArticlesQuery) :
    (articlesHandler l q).pagination.totalPages
        = max 1 (jsCeilDiv (((filteredArticles q l).length : Int)) (jsNumOr q.perPage 12))
    ∧ (articlesHandler l q).pagination.page
        = min (max 1 (jsNumOr q.page 1)) (articlesHandler l q).pagination.totalPages
    ∧ 1 ≤ (articlesHandler l q).pagination.page
    ∧ (articlesHandler l q).pagination.page ≤ (articlesHandler l q).pagination.totalPages
    ∧ (q.page = none → (articlesHandler l q).pagination.page = 1)
    ∧ (q.page = some 0 → (articlesHandler l q).pagination.page = 1)
    ∧ (q.perPage = none → (articlesHandler l q).pagination.perPage = 12)
    ∧ (articlesHandler l q).articles
        = jsSlice (filteredArticles q l)
            (((articlesHandler l q).pagination.page - 1) * jsNumOr q.perPage 12)
            (((articlesHandler l q).pagination.page - 1) * jsNumOr q.perPage 12
              + jsNumOr q.perPage 12)
    ∧ (1 ≤ jsNumOr q.perPage 12 → filteredArticles q l ≠ [] →
        (articlesHandler l q).articles ≠ []) := by
  refine ⟨rfl, rfl, ?_, ?_, ?_, ?_, ?_, rfl, ?_⟩
  · exact le_min (le_max_left 1 _) (le_max_left 1 _)
  · exact min_le_right _ _
  · intro h
    show min (max 1 (jsNumOr q.page 1)) _ = 1
    rw [h]
    show min (max 1 1) _ = 1
    rw [max_self]
    exact min_eq_left (le_max_left 1 _)
  · intro h
    show min (max 1 (jsNumOr q.page 1)) _ = 1
    rw [h]
    show min (max 1 1) _ = 1
    rw [max_self]
    exact min_eq_left (le_max_left 1 _)
  · intro h
    show jsNumOr q.perPage 12 = 12
    rw [h]
    rfl
  · intro hpp hne
    rw [articlesHandler_articles_def]
    have hb : (0 : Int) < jsNumOr q.perPage 12 := hpp
    have htot : (1 : Int) ≤ ((filteredArticles q l).length : Int) := by
      have := List.length_pos.mpr hne
      omega
    set pp := jsNumOr q.perPage 12 with hppdef
    set total : Int := ((filteredArticles q l).length : Int) with htotdef
    set c := jsCeilDiv total pp with hcdef
    have hc1 : 1 ≤ c := jsCeilDiv_pos total pp (by omega) hb
    have hcm := (jsCeilDiv_mul total pp hb).2
    have hpage : (articlesHandler l q).pagination.page
        = min (max 1 (jsNumOr q.page 1)) (max 1 c) := rfl
    set p := (articlesHandler l q).pagination.page with hpdef
    have hp1 : 1 ≤ p := by
      rw [hpage]; exact le_min (le_max_left 1 _) (le_max_left 1 _)
    have hptp : p ≤ c := by
      rw [hpage, max_eq_right hc1]; exact min_le_right _ _
    have hstart_nonneg : 0 ≤ (p - 1) * pp := mul_nonneg (by omega) hb.le
    have hstart_lt : (p - 1) * pp < total := by
      have h1 : (p - 1) * pp ≤ (c - 1) * pp :=
        mul_le_mul_of_nonneg_right (by omega) hb.le
      nlinarith
    rw [jsSlice_eq _ _ _ hstart_nonneg (by linarith)]
    apply List.length_pos.mp
    rw [List.length_take, List.length_drop]
    omega

/-- Concatenating the `pp`-chunks of a list reproduces its prefix. -/
theorem flatten_chunks {α : Type} (l : List α) (pp m : Nat) :
    ((List.range m).map (fun i => (l.drop (i * pp)).take pp)).flatten = l.take (m * pp) := by
  induction m with
  | zero => simp
  | succ n ih =>
    rw [List.range_succ, List.map_append, List.flatten_append]
    simp only [List.map_cons, List.map_nil, List.flatten_cons, List.flatten_nil,
      List.append_nil]
    rw [ih, Nat.succ_mul, List.take_add]

/-- The filter cascade ignores the `page` parameter. -/
theorem filteredArticles_page_irrel (q : ArticlesQuery) (l : List Article) (x : Option Int) :
    filteredArticles { q with page := x } l = filteredArticles q l := rfl

/-- C2: for valid `page ≥ 1`, `perPage ≥ 1` with `page ≤ totalPages`, the
endpoint returns exactly the slice `[(page-1)*perPage, page*perPage)` of the
filtered collection, of length at most `perPage`; `pagination.total` is the
filtered count; concatenating the pages 1..totalPages in order reproduces the
filtered, sorted collection exactly; and in the concrete 25-article,
`perPage = 12` example, `totalPages = 3`, page 3 holds exactly 1 article and
`pagination.total = 25`. -/
theorem C2_slice_partition (l : List Article) (q : ArticlesQuery) (page perPage : Int)
    (hqp : q.page = some page) (hqpp : q.perPage = some perPage)
    (hp : 1 ≤ page) (hpp : 1 ≤ perPage)
    (hple : page ≤ (articlesHandler l q).pagination.totalPages) :
    (articlesHandler l q).articles
        = ((filteredArticles q l).drop ((page - 1) * perPage).toNat).take perPage.toNat
    ∧ ((articlesHandler l q).articles.length : Int) ≤ perPage
    ∧ (articlesHandler l q).pagination.total = ((filteredArticles q l).length : Int)
    ∧ ((List.range (articlesHandler l q).pagination.totalPages.toNat).map
          (fun (i : Nat) =>
            (articlesHandler l { q with page := some ((i : Int) + 1) }).articles)).flatten
        = filteredArticles q l
    ∧ ((filteredArticles q l).length = 25 → perPage = 12 →
        (articlesHandler l q).pagination.totalPages = 3
        ∧ (articlesHandler l q).pagination.total = 25
        ∧ (page = 3 → (articlesHandler l q).articles.length = 1)) := by
  have hb : (0 : Int) < jsNumOr q.perPage 12 := by
    rw [hqpp]
    show (0 : Int) < if perPage = 0 then 12 else perPage
    split <;> omega
  have hppv : jsNumOr q.perPage 12 = perPage := by
    rw [hqpp]
    show (if perPage = 0 then 12 else perPage) = perPage
    split <;> omega
  have hpgv : jsNumOr q.page 1 = page := by
    rw [hqp]
    show (if page = 0 then 1 else page) = page
    split <;> omega
  set total : Int := ((filteredArticles q l).length : Int) with htotdef
  have htotnn : 0 ≤ total := by positivity
  set c := jsCeilDiv total perPage with hcdef
  have htp : (articlesHandler l q).pagination.totalPages = max 1 c := by
    show max 1 (jsCeilDiv total (jsNumOr q.perPage 12)) = max 1 c
    rw [hppv]
  have hpagev : (articlesHandler l q).pagination.page = page := by
    show min (max 1 (jsNumOr q.page 1)) (max 1 (jsCeilDiv total (jsNumOr q.perPage 12))) = page
    rw [hppv, hpgv, max_eq_right hp]
    exact min_eq_left (by rw [htp] at hple; exact hple)
  have hmul := jsCeilDiv_mul total perPage (by omega)
  have hslice : (articlesHandler l q).articles
      = ((filteredArticles q l).drop ((page - 1) * perPage).toNat).take perPage.toNat := by
    rw [articlesHandler_articles_def, hpagev, hppv]
    rw [jsSlice_eq _ _ _ (mul_nonneg (by omega) (by omega)) (by omega)]
    congr 1
    omega
  refine ⟨hslice, ?_, rfl, ?_, ?_⟩
  · rw [hslice]
    rw [List.length_take, List.length_drop]
    have h1 : perPage.toNat ⊓ ((filteredArticles q l).length - ((page - 1) * perPage).toNat)
        ≤ perPage.toNat := min_le_left _ _
    have h2 : ((perPage.toNat : Nat) : Int) = perPage := Int.toNat_of_nonneg (by omega)
    omega
  · -- concatenation of all pages reproduces the filtered collection
    have htpge1 : 1 ≤ max 1 c := le_max_left 1 _
    have hcover : total ≤ max 1 c * perPage := by
      have h1 : c * perPage ≤ max 1 c * perPage :=
        mul_le_mul_of_nonneg_right (le_max_right 1 c) (by omega)
      have hm : total ≤ c * perPage := by rw [hcdef]; exact hmul.1
      linarith
    have hcast : (((max 1 c).toNat * perPage.toNat : Nat) : Int) = max 1 c * perPage := by
      rw [Nat.cast_mul, Int.toNat_of_nonneg (by omega), Int.toNat_of_nonneg (by omega)]
    rw [htp]
    have hmap : (List.range (max 1 c).toNat).map
          (fun (i : Nat) =>
            (articlesHandler l { q with page := some ((i : Int) + 1) }).articles)
        = (List.range (max 1 c).toNat).map
          (fun (i : Nat) =>
            ((filteredArticles q l).drop (i * perPage.toNat)).take perPage.toNat) := by
      apply List.map_congr_left
      intro i hi
      rw [List.mem_range] at hi
      have hile : (i : Int) + 1 ≤ max 1 c := by
        have : (i : Int) < ((max 1 c).toNat : Int) := by exact_mod_cast hi
        rw [Int.toNat_of_nonneg (by omega)] at this
        omega
      have hq' : ({ q with page := some ((i : Int) + 1) } : ArticlesQuery).page
          = some ((i : Int) + 1) := rfl
      have hq'' : ({ q with page := some ((i : Int) + 1) } : ArticlesQuery).perPage
          = q.perPage := rfl
      have hpg' : jsNumOr (some ((i : Int) + 1)) 1 = (i : Int) + 1 := by
        show (if (i : Int) + 1 = 0 then 1 else (i : Int) + 1) = (i : Int) + 1
        split <;> omega
      have hpage' : (articlesHandler l { q with page := some ((i : Int) + 1) }).pagination.page
          = (i : Int) + 1 := by
        show min (max 1 (jsNumOr (some ((i : Int) + 1)) 1))
            (max 1 (jsCeilDiv total (jsNumOr q.perPage 12))) = (i : Int) + 1
        rw [hpg', hppv, max_eq_right (by omega : (1 : Int) ≤ (i : Int) + 1)]
        exact min_eq_left hile
      rw [articlesHandler_articles_def, hpage']
      show jsSlice (filteredArticles q l) _ _ = _
      rw [hq'', hppv]
      rw [jsSlice_eq _ _ _ (mul_nonneg (by omega) (by omega)) (by linarith)]
      have hx : ((i : Int) + 1 - 1) * perPage = ((i * perPage.toNat : Nat) : Int) := by
        rw [Nat.cast_mul, Int.toNat_of_nonneg (show (0 : Int) ≤ perPage by omega)]
        ring
      have hS : (((i : Int) + 1 - 1) * perPage).toNat = i * perPage.toNat := by
        rw [hx, Int.toNat_natCast]
      have hT : (((i : Int) + 1 - 1) * perPage + perPage
            - ((i : Int) + 1 - 1) * perPage).toNat = perPage.toNat := by
        congr 1
        ring
      rw [hS, hT]
    rw [hmap, flatten_chunks]
    apply List.take_of_length_le
    have h : (total : Int) ≤ (((max 1 c).toNat * perPage.toNat : Nat) : Int) := by
      rw [hcast]; exact hcover
    rw [htotdef] at h
    exact_mod_cast h
  · -- the 25-article, perPage = 12 example
    intro h25 h12
    subst h12
    have hc3 : c = 3 := by
      rw [hcdef, htotdef, h25]
      decide
    refine ⟨by rw [htp, hc3]; decide, ?_, ?_⟩
    · show ((filteredArticles q l).length : Int) = 25
      rw [h25]
      decide
    intro hp3
    rw [hslice, List.length_take, List.length_drop, h25, hp3]
    decide

/-! ### The employment flag (generator path) -/

/-- Every article produced by the generator's per-feed step carries the flag
computed from the tenure-window test on its own publish date. -/
theorem genFeedArticles_flag (u : GenUser) (feed : Feed) (a : Article)
    (h : a ∈ genFeedArticles u feed) :
    a.isDuringEmployment
      = some (decide (genJoinDate u ≤ a.pubDate ∧ a.pubDate ≤ genLeftDate u)) := by
  unfold genFeedArticles at h
  rw [List.mem_filterMap] at h
  obtain ⟨i, -, hi⟩ := h
  rcases hpd : i.pubDate with - | t
  · rw [hpd] at hi
    simp at hi
  · rw [hpd] at hi
    simp only [Option.map_some'] at hi
    rw [Option.some_inj] at hi
    subst hi
    rfl

/-- C3 (amended): the normalizer sets `isDuringEmployment` to true exactly when
`joinDate ≤ pubDate ≤ leftDate`, where `leftDate` defaults to the far-future
sentinel `new Date(9999,11,31)` when no departure is recorded and `joinDate`
defaults to `new Date(0,0,1)`, i.e. 1900-01-01 under the JS two-digit-year
mapping (not the earliest representable date).  The spec's example holds:
tenure 2020-01..2021-06 gives flag false at 2021-07-01 and true at
2021-05-01. -/
theorem C3_employment_flag (u : GenUser) (ft : Option String) (i : RawItem) (t : Int) :
    ((genArticle u ft i t).isDuringEmployment = some true ↔
      (genJoinDate u ≤ t ∧ t ≤ genLeftDate u))
    ∧ (u.joined_at = none → genJoinDate u = jsDate 0 0 1)
    ∧ (u.left_at = LeftAt.null ∨ u.left_at = LeftAt.absent →
        genLeftDate u = jsDate 9999 11 31)
    ∧ (∀ (feed : Feed) (a : Article), a ∈ genFeedArticles u feed →
        (a.isDuringEmployment = some true ↔
          (genJoinDate u ≤ a.pubDate ∧ a.pubDate ≤ genLeftDate u)))
    ∧ (genArticle exUser ft i (jsDate 2021 6 1)).isDuringEmployment = some false
    ∧ (genArticle exUser ft i (jsDate 2021 4 1)).isDuringEmployment = some true := by
  refine ⟨?_, ?_, ?_, ?_, rfl, rfl⟩
  · show some (decide _) = some true ↔ _
    simp
  · intro h
    unfold genJoinDate
    rw [h]
  · rintro (h | h) <;> (unfold genLeftDate; rw [h])
  · intro feed a ha
    rw [genFeedArticles_flag u feed a ha]
    simp

/-- C3 counterexample: for an author with no tenure start and no departure, an
article published 1850-01-01 satisfies the spec's rule ("earliest representable"
default start, so inside the window) yet the code flags it `false`, because the
code's default start is `new Date(0,0,1)` = 1900-01-01. -/
theorem C3_counterexample_early_default :
    specDuringEmployment preUser (jsDate 1850 0 1) = true
    ∧ (genArticle preUser none preItem (jsDate 1850 0 1)).isDuringEmployment
        = some false := by
  constructor
  · decide
  · rfl

/-- Witness for C3 at concrete inputs: the defaults fire on `preUser`. -/
theorem C3_employment_flag_witness :
    genJoinDate preUser = jsDate 0 0 1
    ∧ genLeftDate preUser = jsDate 9999 11 31
    ∧ ((genArticle srcUser (some "Site") itemA (jsDate 2024 0 2)).isDuringEmployment
          = some true ↔
        (genJoinDate srcUser ≤ jsDate 2024 0 2 ∧ jsDate 2024 0 2 ≤ genLeftDate srcUser)) := by
  have h := C3_employment_flag preUser none preItem 0
  have h2 := C3_employment_flag srcUser (some "Site") itemA (jsDate 2024 0 2)
  exact ⟨h.2.1 rfl, h.2.2.1 (Or.inl rfl), h2.1⟩

/-! ### Sortedness and stability (both aggregation paths) -/

/-- C4: every aggregation path returns a descending-by-timestamp aggregate,
and the sort is stable: any same-timestamp pair keeps its pre-sort (encounter)
order. -/
theorem C4_sorted_stable (oracle : String → Nat → Option Feed) (gusers : List GenUser)
    (net : String → Option Feed) (fusers : List FbUser) :
    List.Sorted articleGE (generateFeedJson oracle gusers)
    ∧ List.Sorted articleGE (getAllArticlesFallback net fusers)
    ∧ (∀ a b : Article, a.pubDate = b.pubDate →
        List.Sublist [a, b] (generateRawArticles (netOf oracle) gusers) →
        List.Sublist [a, b] (generateFeedJson oracle gusers))
    ∧ (∀ a b : Article, a.pubDate = b.pubDate →
        List.Sublist [a, b] (fallbackRawArticles net fusers) →
        List.Sublist [a, b] (getAllArticlesFallback net fusers)) := by
  refine ⟨List.sorted_insertionSort _ _, List.sorted_insertionSort _ _, ?_, ?_⟩
  · intro a b hd hsub
    exact List.pair_sublist_insertionSort (le_of_eq hd.symm) hsub
  · intro a b hd hsub
    exact List.pair_sublist_insertionSort (le_of_eq hd.symm) hsub

/-- Witness for C4: a concrete feed with two same-instant items keeps their
fetch order through the generator's sort. -/
theorem C4_sorted_stable_witness :
    List.Sublist
      [genArticle srcUser (some "Site") itemA (jsDate 2024 0 2),
       genArticle srcUser (some "Site") itemB (jsDate 2024 0 2)]
      (generateFeedJson oracle0 [srcUser]) := by
  have h := C4_sorted_stable oracle0 [srcUser] net0 [fbUser0]
  apply h.2.2.1 (genArticle srcUser (some "Site") itemA (jsDate 2024 0 2))
    (genArticle srcUser (some "Site") itemB (jsDate 2024 0 2)) rfl
  have hraw : generateRawArticles (netOf oracle0) [srcUser]
      = [genArticle srcUser (some "Site") itemA (jsDate 2024 0 2),
         genArticle srcUser (some "Site") itemB (jsDate 2024 0 2)] := by decide
  rw [hraw]

/-! ### Retry loop and failure isolation -/

/-- If every attempt up to the retry budget fails, the loop returns the failure
after executing exactly one 1-second delay per retry. -/
theorem fetchFeedWithRetry_all_none (o : Nat → Option Feed) :
    ∀ (r a : Nat), (∀ k, k ≤ r → o (a + k) = none) →
      fetchFeedWithRetry o a r = (none, r) := by
  intro r
  induction r with
  | zero =>
    intro a h
    have h0 := h 0 (le_refl 0)
    simp only [Nat.add_zero] at h0
    simp [fetchFeedWithRetry, h0]
  | succ n ih =>
    intro a h
    have h0 := h 0 (by omega)
    simp only [Nat.add_zero] at h0
    have hrest : ∀ k, k ≤ n → o (a + 1 + k) = none := by
      intro k hk
      have := h (k + 1) (by omega)
      rwa [show a + (k + 1) = a + 1 + k by omega] at this
    simp only [fetchFeedWithRetry, h0]
    rw [ih (a + 1) hrest]

/-- A successful attempt returns immediately, with no delay. -/
theorem fetchFeedWithRetry_some (o : Nat → Option Feed) (a : Nat) (f : Feed)
    (hf : o a = some f) : ∀ r, fetchFeedWithRetry o a r = (some f, 0) := by
  intro r
  cases r with
  | zero => simp [fetchFeedWithRetry, hf]
  | succ n => simp [fetchFeedWithRetry, hf]

/-- The generator's fold, rewritten as the flat concatenation of per-(user,
source) contributions; the set of processed pairs is independent of the
network behaviour. -/
theorem genFold_decomp (net : String → Option Feed) (users : List GenUser) :
    ∀ (seen : List String) (A : List Article) (P : List (GenUser × String)),
      A = (P.map (fun p => genSourceArticles net p.1 p.2)).flatten →
      (users.foldl (genStep net) (A, seen)).1
        = (((users.foldl
              (fun (acc : List (GenUser × String) × List String) u =>
                let srcs := u.sources.filter (fun s => s != "" && !(acc.2.contains s))
                (acc.1 ++ srcs.map (fun s => (u, s)), acc.2 ++ srcs))
              (P, seen)).1).map (fun p => genSourceArticles net p.1 p.2)).flatten := by
  induction users with
  | nil =>
    intro seen A P hA
    simpa using hA
  | cons u us ih =>
    intro seen A P hA
    simp only [List.foldl_cons]
    apply ih
    simp only [genStep]
    rw [hA, List.map_append, List.flatten_append, List.map_map]
    rfl

/-- `generateRawArticles` decomposes into independent per-source
contributions over the net-independent processed pair list. -/
theorem generateRaw_decomp (net : String → Option Feed) (users : List GenUser) :
    generateRawArticles net users
      = ((processedPairs users).map (fun p => genSourceArticles net p.1 p.2)).flatten := by
  unfold generateRawArticles processedPairs
  exact genFold_decomp net users [] [] [] rfl

/-- C5: a failing source is retried up to 3 times (4 attempts), with exactly
one fixed 1-second delay before each retry; a first-attempt success retries
nothing; a source whose every attempt fails contributes the empty list; and
the aggregate is the concatenation of per-source contributions over a
net-independent source list, so one source's failure never aborts the run or
affects the contribution of any other source or user. -/
theorem C5_retry_and_isolation (oracle : String → Nat → Option Feed)
    (net : String → Option Feed) (users : List GenUser) (u : GenUser) (src : String) :
    ((∀ k, k ≤ 3 → oracle src k = none) →
      fetchFeedWithRetry (oracle src) 0 3 = (none, 3) ∧ netOf oracle src = none)
    ∧ (∀ f, oracle src 0 = some f →
        fetchFeedWithRetry (oracle src) 0 3 = (some f, 0))
    ∧ (net src = none → genSourceArticles net u src = [])
    ∧ generateRawArticles net users
        = ((processedPairs users).map (fun p => genSourceArticles net p.1 p.2)).flatten := by
  refine ⟨?_, ?_, ?_, generateRaw_decomp net users⟩
  · intro h
    have hall : ∀ k, k ≤ 3 → oracle src (0 + k) = none := by
      intro k hk
      simpa using h k hk
    have := fetchFeedWithRetry_all_none (oracle src) 3 0 hall
    exact ⟨this, by unfold netOf; rw [this]⟩
  · intro f hf
    exact fetchFeedWithRetry_some (oracle src) 0 f hf 3
  · intro h
    unfold genSourceArticles
    rw [h]

/-- Witness for C5: the always-failing oracle yields 4 failed attempts, 3
delays, and an empty contribution, while the other source of the same run
still contributes its two articles. -/
theorem C5_retry_and_isolation_witness :
    fetchFeedWithRetry (fun _ => (none : Option Feed)) 0 3 = (none, 3)
    ∧ genSourceArticles (fun _ => (none : Option Feed)) srcUser "https://dead.example" = []
    ∧ generateRawArticles net0 [srcUser]
        = ((processedPairs [srcUser]).map
            (fun p => genSourceArticles net0 p.1 p.2)).flatten := by
  have h := C5_retry_and_isolation (fun _ _ => (none : Option Feed))
    (fun _ => (none : Option Feed)) [srcUser] srcUser "https://dead.example"
  have h2 := C5_retry_and_isolation (fun _ _ => (none : Option Feed)) net0 [srcUser]
    srcUser "https://dead.example"
  exact ⟨(h.1 (fun _ _ => rfl)).1, h.2.2.1 rfl, h2.2.2.2⟩

/-! ### Filter semantics of the articles endpoint -/

/-- C6: the filter cascade equals one pass keeping exactly the articles that
match the author (when a truthy author is given), the employment flag (only
when a truthy author is given and `duringEmploymentOnly === 'true'`), and the
tag (when a truthy tag is given) — three independent axes; and when no author
is given the `duringEmploymentOnly` parameter has no effect at all. -/
theorem C6_filter_axes (q : ArticlesQuery) (l : List Article) :
    filteredArticles q l = l.filter (fun a => authorOk q a && empOk q a && tagOk q a)
    ∧ (jsTruthyStr q.author = none →
        filteredArticles q l
          = filteredArticles { q with duringEmploymentOnly := none } l) := by
  constructor
  · unfold filteredArticles
    rcases hau : jsTruthyStr q.author with - | au
    · rcases htag : jsTruthyStr q.tag with - | t
      · rw [eq_comm, List.filter_eq_self]
        intro a _
        simp [authorOk, empOk, tagOk, hau, htag]
      · apply List.filter_congr
        intro a _
        simp [authorOk, empOk, tagOk, hau, htag]
    · cases hemp : q.duringEmploymentOnly == some "true"
      · rcases htag : jsTruthyStr q.tag with - | t
        · simp only [hemp, Bool.false_eq_true, if_false]
          apply List.filter_congr
          intro a _
          simp [authorOk, empOk, tagOk, hau, hemp, htag]
        · simp only [hemp, Bool.false_eq_true, if_false, List.filter_filter]
          apply List.filter_congr
          intro a _
          simp [authorOk, empOk, tagOk, hau, hemp, htag, Bool.and_comm]
      · rcases htag : jsTruthyStr q.tag with - | t
        · simp only [hemp, if_true, List.filter_filter]
          apply List.filter_congr
          intro a _
          simp [authorOk, empOk, tagOk, hau, hemp, htag, Bool.and_comm]
        · simp only [hemp, if_true, List.filter_filter]
          apply List.filter_congr
          intro a _
          simp only [authorOk, empOk, tagOk, hau, hemp, htag, Option.isSome_some,
            Bool.true_and]
          cases a.author == au <;> cases a.isDuringEmployment == some true <;>
            cases a.tags.contains t <;> rfl
  · intro h
    unfold filteredArticles
    rcases htag : jsTruthyStr q.tag with - | t <;> simp only [h]

/-- Witness for C6's conditional part at a concrete query. -/
theorem C6_filter_axes_witness :
    filteredArticles
        { page := none, perPage := none, author := none, tag := some "rust",
          duringEmploymentOnly := some "true" } [sampleArticle]
      = filteredArticles
        { page := none, perPage := none, author := none, tag := some "rust",
          duringEmploymentOnly := none } [sampleArticle] :=
  (C6_filter_axes
    { page := none, perPage := none, author := none, tag := some "rust",
      duringEmploymentOnly := some "true" } [sampleArticle]).2 rfl

/-! ### The users endpoint -/

/-- C7 counterexample: a user whose `left_at` key is absent has no recorded
departure, yet the no-name response omits them, because the code filters with
`user.left_at === null` and `undefined !== null`. -/
theorem C7_counterexample_absent_left :
    usersHandler [absentLeftUser] none = UsersResponse.many []
    ∧ noRecordedDeparture absentLeftUser = true := ⟨rfl, rfl⟩

/-- C7 (amended): with a truthy `name` the endpoint returns the first user of
that exact name, or null when none matches; with no (or an empty) name it
returns exactly the users whose `left_at` is explicitly `null` — users whose
`left_at` key is absent are excluded even though they also have no recorded
departure. -/
theorem C7_users_endpoint (users : List GenUser) (nameQ : Option String) :
    (∀ n, jsTruthyStr nameQ = some n →
      usersHandler users nameQ = UsersResponse.one (users.find? (fun u => u.name == n))
      ∧ (∀ u, users.find? (fun u => u.name == n) = some u → u.name = n)
      ∧ (users.find? (fun u => u.name == n) = none ↔ ∀ u ∈ users, u.name ≠ n))
    ∧ (jsTruthyStr nameQ = none →
      usersHandler users nameQ
          = UsersResponse.many (users.filter (fun u => u.left_at == LeftAt.null))
      ∧ (∀ u, u ∈ users.filter (fun u => u.left_at == LeftAt.null) ↔
          (u ∈ users ∧ u.left_at = LeftAt.null))) := by
  constructor
  · intro n hn
    refine ⟨by simp [usersHandler, hn], ?_, ?_⟩
    · intro u hu
      have := List.find?_some hu
      simpa using this
    · rw [List.find?_eq_none]
      simp
  · intro hn
    refine ⟨by simp [usersHandler, hn], ?_⟩
    intro u
    simp [List.mem_filter]

/-- Witness for C7 at a concrete user list. -/
theorem C7_users_endpoint_witness :
    usersHandler [absentLeftUser, nullLeftUser] (some "bob")
        = UsersResponse.one (some nullLeftUser)
    ∧ usersHandler [absentLeftUser, nullLeftUser] none
        = UsersResponse.many [nullLeftUser] := by
  have h := C7_users_endpoint [absentLeftUser, nullLeftUser] (some "bob")
  have h2 := C7_users_endpoint [absentLeftUser, nullLeftUser] none
  constructor
  · rw [(h.1 "bob" rfl).1]
    rfl
  · rw [(h2.2 rfl).1]
    rfl

/-! ### Dateless items -/

/-- C8: on both aggregation paths, a raw item with a JS-falsy publish date
contributes nothing: removing it from the feed leaves the per-feed output
unchanged, and no error output exists (both functions are total and return
only the article list). -/
theorem C8_dateless_items_dropped (u : GenUser) (fu : FbUser) (ft : Option String)
    (l1 l2 : List RawItem) (i : RawItem) (h : i.pubDate = none) :
    genFeedArticles u ⟨ft, l1 ++ i :: l2⟩ = genFeedArticles u ⟨ft, l1 ++ l2⟩
    ∧ fbFeedArticles fu ⟨ft, l1 ++ i :: l2⟩ = fbFeedArticles fu ⟨ft, l1 ++ l2⟩ := by
  constructor
  · simp [genFeedArticles, List.filterMap_append, List.filterMap_cons, h]
  · simp [fbFeedArticles, List.filterMap_append, List.filterMap_cons, h]

/-- Witness for C8 at a concrete dateless item. -/
theorem C8_dateless_items_dropped_witness :
    genFeedArticles srcUser ⟨some "Site", [noDateItem]⟩
        = genFeedArticles srcUser ⟨some "Site", []⟩
    ∧ fbFeedArticles fbUser0 ⟨some "Site", [noDateItem]⟩
        = fbFeedArticles fbUser0 ⟨some "Site", []⟩ :=
  C8_dateless_items_dropped srcUser fbUser0 (some "Site") [] [] noDateItem rfl

/-! ### The manual refresh endpoint -/

/-- C9: for a POST request, a matching shared secret (header or body, with the
configured key defaulting per `REFRESH_API_KEY || 'dev-key'`) runs the
generation step and reports its success or failure together with the elapsed
time, while a mismatch yields an authorization failure and the generation step
is not run. -/
theorem C9_refresh_auth (req : RefreshRequest) (envKey : Option String)
    (gen : GenResult) (d : Nat) (hm : req.method = "POST") :
    (jsStrOr req.headerApiKey req.bodySecretKey = some (refreshValidKey envKey) →
      (refreshHandler req envKey gen d).1 = true
      ∧ (gen.success = true →
          (refreshHandler req envKey gen d).2
            = RefreshResponse.ok "Feed refreshed successfully" d)
      ∧ (gen.success = false → ∃ e,
          (refreshHandler req envKey gen d).2 = RefreshResponse.failed e d))
    ∧ (jsStrOr req.headerApiKey req.bodySecretKey ≠ some (refreshValidKey envKey) →
      (refreshHandler req envKey gen d).1 = false
      ∧ (refreshHandler req envKey gen d).2 = RefreshResponse.unauthorized) := by
  unfold refreshHandler
  rw [hm]
  constructor
  · intro hk
    simp only [bne_self_eq_false, Bool.false_eq_true, if_false, hk, if_true]
    refine ⟨?_, ?_, ?_⟩
    · by_cases hs : gen.success <;> simp [hs]
    · intro hs
      simp [hs]
    · intro hs
      simp [hs]
  · intro hk
    have hk' : (jsStrOr req.headerApiKey req.bodySecretKey
        != some (refreshValidKey envKey)) = true := by
      simpa using hk
    simp only [bne_self_eq_false, Bool.false_eq_true, if_false, hk', if_true]
    simp

/-- Witness for C9 with the valid dev key and a wrong key. -/
theorem C9_refresh_auth_witness :
    (refreshHandler okReq none ⟨true, none⟩ 5).1 = true
    ∧ (refreshHandler okReq none ⟨true, none⟩ 5).2
        = RefreshResponse.ok "Feed refreshed successfully" 5
    ∧ (refreshHandler badReq none ⟨true, none⟩ 5).1 = false
    ∧ (refreshHandler badReq none ⟨true, none⟩ 5).2 = RefreshResponse.unauthorized := by
  have h1 := C9_refresh_auth okReq none ⟨true, none⟩ 5 rfl
  have h2 := C9_refresh_auth badReq none ⟨true, none⟩ 5 rfl
  have hm1 := h1.1 (by decide)
  have hm2 := h2.2 (by decide)
  exact ⟨hm1.1, hm1.2.1 rfl, hm2.1, hm2.2⟩

/-! ### Fallback path vs generator path (employment flag divergence) -/

/-- Every article the fallback per-feed loop keeps lies inside the tenure
window and carries no employment flag. -/
theorem fbFeedArticles_window (u : FbUser) (feed : Feed) (a : Article)
    (h : a ∈ fbFeedArticles u feed) :
    a.isDuringEmployment = none
    ∧ fbJoinDate u ≤ a.pubDate ∧ a.pubDate ≤ fbLeftDate u := by
  unfold fbFeedArticles at h
  rw [List.mem_filterMap] at h
  obtain ⟨i, -, hi⟩ := h
  rcases hpd : i.pubDate with - | t
  · rw [hpd] at hi
    simp at hi
  · rw [hpd] at hi
    simp only [] at hi
    split at hi
    · rw [Option.some_inj] at hi
      subst hi
      refine ⟨rfl, ?_, ?_⟩ <;> simp_all [fbArticle]
    · simp at hi

/-- No article of the fallback aggregate (pre-sort) has an employment flag. -/
theorem fallbackRaw_no_flag (net : String → Option Feed) (users : List FbUser)
    (a : Article) (h : a ∈ fallbackRawArticles net users) :
    a.isDuringEmployment = none := by
  unfold fallbackRawArticles at h
  rw [List.mem_flatten] at h
  obtain ⟨l1, hl1, ha⟩ := h
  rw [List.mem_map] at hl1
  obtain ⟨u, -, rfl⟩ := hl1
  rw [List.mem_flatten] at ha
  obtain ⟨l2, hl2, ha⟩ := ha
  rw [List.mem_map] at hl2
  obtain ⟨src, -, rfl⟩ := hl2
  unfold fbSourceArticles at ha
  rcases hnet : net src with - | feed
  · rw [hnet] at ha
    simp at ha
  · rw [hnet] at ha
    exact (fbFeedArticles_window u feed a ha).1

/-- The generator's per-feed step keeps every dated item (it flags instead of
filtering). -/
theorem genFeedArticles_length (u : GenUser) (ft : Option String)
    (items : List RawItem) :
    (genFeedArticles u ⟨ft, items⟩).length
      = (items.filter (fun i => i.pubDate.isSome)).length := by
  induction items with
  | nil => rfl
  | cons i rest ih =>
    rcases hpd : i.pubDate with - | t <;>
      simp_all [genFeedArticles, List.filterMap_cons, List.filter_cons, hpd]

/-- C10: the fallback path excludes out-of-tenure articles at ingestion and
attaches no `isDuringEmployment` field to those it keeps; hence any query with
a (truthy) author and `duringEmploymentOnly=true` over a fallback-built
aggregate returns no articles.  The generator path diverges: it keeps every
dated item and attaches the flag to each. -/
theorem C10_fallback_divergence (net : String → Option Feed) (fusers : List FbUser)
    (oracle : String → Nat → Option Feed) (gusers : List GenUser) :
    (∀ a ∈ getAllArticlesFallback net fusers, a.isDuringEmployment = none)
    ∧ (∀ (fu : FbUser) (feed : Feed) (a : Article), a ∈ fbFeedArticles fu feed →
        fbJoinDate fu ≤ a.pubDate ∧ a.pubDate ≤ fbLeftDate fu)
    ∧ (∀ q : ArticlesQuery, (jsTruthyStr q.author).isSome = true →
        q.duringEmploymentOnly = some "true" →
        (articlesHandler (getAllArticlesFallback net fusers) q).articles = []
        ∧ (articlesHandler (getAllArticlesFallback net fusers) q).pagination.total = 0)
    ∧ (∀ a ∈ generateFeedJson oracle gusers, a.isDuringEmployment ≠ none)
    ∧ (∀ (u : GenUser) (ft : Option String) (items : List RawItem),
        (genFeedArticles u ⟨ft, items⟩).length
          = (items.filter (fun i => i.pubDate.isSome)).length) := by
  have hfall : ∀ a ∈ getAllArticlesFallback net fusers, a.isDuringEmployment = none := by
    intro a ha
    rw [getAllArticlesFallback, sortArticles, List.mem_insertionSort] at ha
    exact fallbackRaw_no_flag net fusers a ha
  refine ⟨hfall, ?_, ?_, ?_, fun u ft items => genFeedArticles_length u ft items⟩
  · intro fu feed a ha
    exact (fbFeedArticles_window fu feed a ha).2
  · intro q hau hemp
    have hfilter : filteredArticles q (getAllArticlesFallback net fusers) = [] := by
      unfold filteredArticles
      rcases hau' : jsTruthyStr q.author with - | au
      · rw [hau'] at hau
        simp at hau
      · have hbeq : (q.duringEmploymentOnly == some "true") = true := by
          rw [hemp]
          rfl
        simp only [hbeq, if_true]
        have hemptyfilter :
            ((getAllArticlesFallback net fusers).filter
                (fun a => a.author == au)).filter
              (fun a => a.isDuringEmployment == some true) = [] := by
          rw [List.filter_eq_nil_iff]
          intro a ha
          rw [List.mem_filter] at ha
          rw [hfall a ha.1]
          simp
        rcases htag : jsTruthyStr q.tag with - | t
        · exact hemptyfilter
        · rw [hemptyfilter]
          rfl
    constructor
    · rw [articlesHandler_articles_def, hfilter]
      simp [jsSlice]
    · show ((filteredArticles q (getAllArticlesFallback net fusers)).length : Int) = 0
      rw [hfilter]
      rfl
  · intro a ha
    rw [generateFeedJson, sortArticles, List.mem_insertionSort, generateRaw_decomp] at ha
    rw [List.mem_flatten] at ha
    obtain ⟨l1, hl1, ha⟩ := ha
    rw [List.mem_map] at hl1
    obtain ⟨p, -, rfl⟩ := hl1
    unfold genSourceArticles at ha
    rcases hnet : netOf oracle p.2 with - | feed
    · rw [hnet] at ha
      simp at ha
    · rw [hnet] at ha
      rw [genFeedArticles_flag p.1 feed a ha]
      simp

/-- Witness for C10: the concrete fallback aggregate plus an author-restricted
employment query returns no articles. -/
theorem C10_fallback_divergence_witness :
    (articlesHandler (getAllArticlesFallback net0 [fbUser0])
        { page := none, perPage := none, author := some "A", tag := none,
          duringEmploymentOnly := some "true" }).articles = [] := by
  have h := C10_fallback_divergence net0 [fbUser0] oracle0 [srcUser]
  exact (h.2.2.1
    { page := none, perPage := none, author := some "A", tag := none,
      duringEmploymentOnly := some "true" } (by decide) rfl).1

/-! ### Witnesses for the pagination theorems -/

/-- Witness for C1: `page=0` clamps to 1 and a one-article collection yields a
non-empty first page. -/
theorem C1_pagination_defaults_and_clamp_witness :
    (articlesHandler [sampleArticle]
        { page := some 0, perPage := none, author := none, tag := none,
          duringEmploymentOnly := none }).pagination.page = 1
    ∧ (articlesHandler [sampleArticle]
        { page := some 0, perPage := none, author := none, tag := none,
          duringEmploymentOnly := none }).articles ≠ [] := by
  have h := C1_pagination_defaults_and_clamp [sampleArticle]
    { page := some 0, perPage := none, author := none, tag := none,
      duringEmploymentOnly := none }
  exact ⟨h.2.2.2.2.2.1 rfl, h.2.2.2.2.2.2.2.2 (by decide) (by decide)⟩

/-- Witness for C2: 25 articles at `perPage = 12`, page 3. -/
theorem C2_slice_partition_witness :
    ((articlesHandler (List.replicate 25 sampleArticle)
        { page := some 3, perPage := some 12, author := none, tag := none,
          duringEmploymentOnly := none }).articles.length : Int) ≤ 12
    ∧ (articlesHandler (List.replicate 25 sampleArticle)
        { page := some 3, perPage := some 12, author := none, tag := none,
          duringEmploymentOnly := none }).pagination.totalPages = 3
    ∧ (articlesHandler (List.replicate 25 sampleArticle)
        { page := some 3, perPage := some 12, author := none, tag := none,
          duringEmploymentOnly := none }).pagination.total = 25
    ∧ (articlesHandler (List.replicate 25 sampleArticle)
        { page := some 3, perPage := some 12, author := none, tag := none,
          duringEmploymentOnly := none }).articles.length = 1 := by
  have h := C2_slice_partition (List.replicate 25 sampleArticle)
    { page := some 3, perPage := some 12, author := none, tag := none,
      duringEmploymentOnly := none } 3 12 rfl rfl (by decide) (by decide) (by decide)
  have hex := h.2.2.2.2 (by decide) rfl
  exact ⟨h.2.1, hex.1, hex.2.1, hex.2.2 rfl⟩

end Ember
